import Mathlib

/-
Verification of the layer-control widget (maplibre-layer-control): a shallow
embedding of the data model and the operations of src/types/layer.ts,
src/composables/useMapLayers.ts, src/components/LayerItem.vue,
src/components/LayerGroupItem.vue and demo/App.vue, with theorems checking
the specified behaviour.

JavaScript strings are embedded as Lean strings; toLowerCase, includes and
trim are modelled on the character list. JavaScript numbers carrying layer
opacities are embedded as rationals. The external map object (maplibre-gl)
is modelled by the set of layer ids it carries (its getLayer existence
check), by an oracle for the outcome of a mutation call (ok, or a thrown
error caught by the surrounding try/catch), and by the list of mutation
calls the widget issues to it.
-/

namespace LayerControl

/-! ## JavaScript string primitives -/

/-- JavaScript's toLowerCase, character by character (the source only ever
lowercases before comparing). -/
def jsToLowerCase (s : String) : String :=
  ⟨s.data.map Char.toLower⟩

/-- JavaScript's String.prototype.includes: substring containment. -/
def jsIncludes (s sub : String) : Bool :=
  decide (sub.data <:+: s.data)

/-- JavaScript's String.prototype.trim: strip leading and trailing
whitespace. -/
def jsTrim (s : String) : String :=
  ⟨((s.data.dropWhile Char.isWhitespace).reverse.dropWhile Char.isWhitespace).reverse⟩

/-! ## Data model (src/types/layer.ts) -/

/-- LayerMetadata of src/types/layer.ts (the legend and temporal sub-records
play no role in any widget logic and are left abstract as their presence). -/
structure LayerMetadata where
  description : Option String := none
  source : Option String := none
  attribution : Option String := none
  tags : Option (List String) := none
deriving Repr, DecidableEq

/-- LayerConfig of src/types/layer.ts. The symbolic layer type is kept as
the string it is at runtime (the TS union of ten literals). -/
structure LayerConfig where
  id : String
  name : String
  visible : Bool
  opacity : ℚ
  type : String
  source : Option String := none
  metadata : Option LayerMetadata := none
  groupId : Option String := none
  toggleable : Option Bool := none
  opacityControl : Option Bool := none
  minZoom : Option ℚ := none
  maxZoom : Option ℚ := none
deriving Repr, DecidableEq

/-- LayerGroup of src/types/layer.ts. -/
structure LayerGroup where
  id : String
  name : String
  expanded : Bool
  layers : List LayerConfig
  icon : Option String := none
  groupToggle : Option Bool := none
deriving Repr, DecidableEq

/-! ## The external map object -/

/-- A mutation call issued to the external maplibre-gl map object. -/
inductive MapAction where
  | setLayoutVisibility (layerId : String) (value : String)
  | setPaintProperty (layerId : String) (prop : String) (value : ℚ)
  | moveLayer (layerId : String) (beforeId : Option String)
deriving Repr, DecidableEq

/-- The outcome of one external mutation call: ok, or a thrown error (which
the composable catches). An oracle of this type stands for the map's
behaviour. -/
abbrev MapExt := MapAction → Except String Unit

/-- An external map that never throws. -/
def extOk : MapExt := fun _ => Except.ok ()

/-! ## The composable useMapLayers (src/composables/useMapLayers.ts) -/

/-- toggleLayerVisibility of useMapLayers.ts: guarded by mapReady and the
getLayer existence check (present), it issues one setLayoutProperty call
with value visible or none; a throw from the map is caught. The returned
value is the call that was issued, if any; the function itself never
throws. -/
def toggleLayerVisibility (mapReady : Bool) (present : String → Bool)
    (ext : MapExt) (layer : LayerConfig) (visible : Bool) :
    Except String (Option MapAction) :=
  if !mapReady then Except.ok none
  else if !(present layer.id) then Except.ok none
  else
    let a := MapAction.setLayoutVisibility layer.id (if visible then "visible" else "none")
    match ext a with
    | Except.ok _ => Except.ok (some a)
    | Except.error _ => Except.ok (some a)

/-- The opacityMap record of getOpacityProperty in useMapLayers.ts, as the
association list its eight entries form. -/
def opacityMap : List (String × String) :=
  [("raster", "raster-opacity"),
   ("fill", "fill-opacity"),
   ("line", "line-opacity"),
   ("circle", "circle-opacity"),
   ("symbol", "icon-opacity"),
   ("fill-extrusion", "fill-extrusion-opacity"),
   ("heatmap", "heatmap-opacity"),
   ("hillshade", "hillshade-illumination-anchor")]

/-- getOpacityProperty of useMapLayers.ts: the record lookup, null for a
type with no entry. -/
def getOpacityProperty (type : String) : Option String :=
  opacityMap.lookup type

/-- updateLayerOpacity of useMapLayers.ts: guarded by mapReady and the
getLayer check, it divides the percentage by 100, looks the paint property
up by layer type (warning and returning when there is none) and issues one
setPaintProperty call; a throw from the map is caught. -/
def updateLayerOpacity (mapReady : Bool) (present : String → Bool)
    (ext : MapExt) (layer : LayerConfig) (opacity : ℚ) :
    Except String (Option MapAction) :=
  if !mapReady then Except.ok none
  else if !(present layer.id) then Except.ok none
  else
    let opacityValue := opacity / 100
    match getOpacityProperty layer.type with
    | none => Except.ok none
    | some opacityProperty =>
      let a := MapAction.setPaintProperty layer.id opacityProperty opacityValue
      match ext a with
      | Except.ok _ => Except.ok (some a)
      | Except.error _ => Except.ok (some a)

/-- The body of the forEach of updateLayerOrder in useMapLayers.ts: walking
the reversed list with its index, an entry present on the map is moved with
no reference at index 0 and moved before the previous entry of the reversed
list otherwise (when that previous entry is on the map too). -/
def orderLoop (present : String → Bool) (reversedLayers : List LayerConfig) :
    Nat → List LayerConfig → List MapAction
  | _, [] => []
  | index, layer :: rest =>
    (if present layer.id then
      if index == 0 then [MapAction.moveLayer layer.id none]
      else
        match reversedLayers[index - 1]? with
        | some previousLayer =>
          if present previousLayer.id then
            [MapAction.moveLayer layer.id (some previousLayer.id)]
          else []
        | none => []
    else []) ++ orderLoop present reversedLayers (index + 1) rest

/-- updateLayerOrder of useMapLayers.ts: nothing when the map is not ready;
otherwise the forEach over the reversed layer list. -/
def updateLayerOrder (mapReady : Bool) (present : String → Bool)
    (layers : List LayerConfig) : List MapAction :=
  if !mapReady then []
  else
    let reversedLayers := layers.reverse
    orderLoop present reversedLayers 0 reversedLayers

/-! ## The LayerControl component (second component of src/components/LayerItem.vue) -/

/-- The search predicate of the filteredLayers computed property: name,
optional metadata description, or any metadata tag contains the (already
lowercased) query; optional chaining that hits undefined is falsy. -/
def layerMatchesQuery (query : String) (layer : LayerConfig) : Bool :=
  jsIncludes (jsToLowerCase layer.name) query ||
  (match layer.metadata.bind (fun m => m.description) with
   | some d => jsIncludes (jsToLowerCase d) query
   | none => false) ||
  (match layer.metadata.bind (fun m => m.tags) with
   | some tags => tags.any (fun tag => jsIncludes (jsToLowerCase tag) query)
   | none => false)

/-- filteredLayers of the LayerControl component: the whole list for a
whitespace-only query, otherwise the layers matching the lowercased query
by name, description or tag. -/
def filteredLayers (searchQuery : String) (localLayers : List LayerConfig) :
    List LayerConfig :=
  if jsTrim searchQuery = "" then localLayers
  else
    let query := jsToLowerCase searchQuery
    localLayers.filter (fun layer => layerMatchesQuery query layer)

/-- The member predicate of the filteredGroups computed property: name or
optional metadata description contains the (already lowercased) query —
tags are not consulted here. -/
def groupLayerMatchesQuery (query : String) (layer : LayerConfig) : Bool :=
  jsIncludes (jsToLowerCase layer.name) query ||
  (match layer.metadata.bind (fun m => m.description) with
   | some d => jsIncludes (jsToLowerCase d) query
   | none => false)

/-- filteredGroups of the LayerControl component: the whole list for a
whitespace-only query, otherwise each group mapped to a copy holding only
its matching member layers, with groups left empty filtered out. -/
def filteredGroups (searchQuery : String) (localGroups : List LayerGroup) :
    List LayerGroup :=
  if jsTrim searchQuery = "" then localGroups
  else
    let query := jsToLowerCase searchQuery
    (localGroups.map (fun group =>
      { group with layers := group.layers.filter (fun layer => groupLayerMatchesQuery query layer) })).filter
      (fun group => group.layers.length > 0)

/-- ungroupedLayers of the LayerControl component: all filtered layers when
the groups prop is absent or empty, otherwise the filtered layers whose id
is in no group's member list (the set groupedLayerIds). -/
def ungroupedLayers (groups : Option (List LayerGroup))
    (filtered : List LayerConfig) : List LayerConfig :=
  match groups with
  | none => filtered
  | some gs =>
    if gs.length = 0 then filtered
    else
      let groupedLayerIds := gs.flatMap (fun group => group.layers.map (fun layer => layer.id))
      filtered.filter (fun layer => !(groupedLayerIds.contains layer.id))

/-- One observable step of a handler of the LayerControl component, in the
order the handler's statements run: the local field write on the layer
record, a mutation call issued to the map, an event emitted to the host. -/
inductive Event where
  | localVisible (layerId : String) (value : Bool)
  | localOpacity (layerId : String) (value : ℚ)
  | mapCall (action : MapAction)
  | emitVisibilityChange (layerId : String) (value : Bool)
  | emitOpacityChange (layerId : String) (value : ℚ)
deriving Repr, DecidableEq

/-- handleLayerVisibilityChange of the LayerControl component: write
layer.visible, call toggleLayerVisibility of the composable, emit
layer-visibility-change with the layer id and the new value. The result is
the updated layer record and the ordered trace of what the handler did; an
error would only escape if the composable threw. -/
def handleLayerVisibilityChange (mapReady : Bool) (present : String → Bool)
    (ext : MapExt) (layer : LayerConfig) (visible : Bool) :
    Except String (LayerConfig × List Event) :=
  let layer1 := { layer with visible := visible }
  match toggleLayerVisibility mapReady present ext layer1 visible with
  | Except.error e => Except.error e
  | Except.ok act =>
    Except.ok (layer1,
      Event.localVisible layer1.id visible ::
      (act.toList.map Event.mapCall ++ [Event.emitVisibilityChange layer1.id visible]))

/-- handleLayerOpacityChange of the LayerControl component: write
layer.opacity, call updateLayerOpacity of the composable, emit
layer-opacity-change with the layer id and the new value. -/
def handleLayerOpacityChange (mapReady : Bool) (present : String → Bool)
    (ext : MapExt) (layer : LayerConfig) (opacity : ℚ) :
    Except String (LayerConfig × List Event) :=
  let layer1 := { layer with opacity := opacity }
  match updateLayerOpacity mapReady present ext layer1 opacity with
  | Except.error e => Except.error e
  | Except.ok act =>
    Except.ok (layer1,
      Event.localOpacity layer1.id opacity ::
      (act.toList.map Event.mapCall ++ [Event.emitOpacityChange layer1.id opacity]))

/-! ## The LayerGroupItem component (src/components/LayerGroupItem.vue) -/

/-- allLayersVisible of LayerGroupItem.vue. -/
def allLayersVisible (group : LayerGroup) : Bool :=
  group.layers.all (fun layer => layer.visible)

/-- someLayersVisible of LayerGroupItem.vue. -/
def someLayersVisible (group : LayerGroup) : Bool :=
  group.layers.any (fun layer => layer.visible) && !(allLayersVisible group)

/-- visibleCount of LayerGroupItem.vue. -/
def visibleCount (group : LayerGroup) : Nat :=
  (group.layers.filter (fun layer => layer.visible)).length

/-- toggleGroupLayers of the LayerControl component, restricted to what it
does to the visibility flags: every member whose toggleable flag is not
false goes through handleLayerVisibilityChange (whose local write sets
visible), the others are untouched. -/
def toggleGroupLayers (group : LayerGroup) (visible : Bool) : List LayerConfig :=
  group.layers.map (fun layer =>
    if layer.toggleable ≠ some false then { layer with visible := visible } else layer)

/-- toggleAllLayers of LayerGroupItem.vue composed with toggleGroupLayers of
the LayerControl component: the group control toggles every toggleable
member to the negation of allLayersVisible. -/
def toggleAllLayers (group : LayerGroup) : List LayerConfig :=
  let newVisibility := !(allLayersVisible group)
  toggleGroupLayers group newVisibility

/-! ## The demo basemap handler (demo/App.vue) -/

/-- The fixed basemap identifier set of handleBasemapChange in demo/App.vue. -/
def basemapIds : List String :=
  ["osm-base", "satellite-base", "terrain-base"]

/-- handleBasemapChange of demo/App.vue: turning a basemap layer on forces
every other basemap off, in the layer records (layer.visible = false) and on
the map (a visibility none layout call for each such layer present on the
map); turning a layer off or toggling a non-basemap layer returns with no
change. The result is the updated layer list and the issued map calls. -/
def handleBasemapChange (present : String → Bool) (layers : List LayerConfig)
    (layerId : String) (visible : Bool) : List LayerConfig × List MapAction :=
  if !visible || !(basemapIds.contains layerId) then (layers, [])
  else
    (layers.map (fun layer =>
      if basemapIds.contains layer.id && layer.id != layerId then
        { layer with visible := false }
      else layer),
     layers.filterMap (fun layer =>
      if basemapIds.contains layer.id && layer.id != layerId && present layer.id then
        some (MapAction.setLayoutVisibility layer.id "none")
      else none))

/-! ## Reference reading of the reorder contract, and the external move
semantics -/

/-- The reorder contract's instruction pattern, stated from the claim for
comparison with updateLayerOrder: on the reversed (bottom-most first) list,
the first entry is moved with no reference and each subsequent entry is
moved before the previous entry. -/
def reverseWalkMoves : List LayerConfig → List MapAction
  | [] => []
  | first :: rest =>
    MapAction.moveLayer first.id none ::
      (rest.zip (first :: rest)).map (fun p => MapAction.moveLayer p.1.id (some p.2.id))

/-- Insert a layer id directly above a reference id in a bottom-to-top
stack (unchanged when the reference is absent). -/
def insertAbove : List String → String → String → List String
  | [], _, _ => []
  | x :: xs, ref, lid => if x == ref then x :: lid :: xs else x :: insertAbove xs ref lid

/-- Modelled from the spec: the external map object's move-layer mutation
(maplibre-gl, which is not part of this repository). The spec's reorder
contract reads a move with no reference as placing the layer at the very
bottom, and a move before reference X as placing the layer directly above
X in the bottom-to-top z-order. Other mutations leave the z-order stack
alone. -/
def applyMove (stack : List String) : MapAction → List String
  | MapAction.moveLayer lid none => lid :: stack.erase lid
  | MapAction.moveLayer lid (some ref) => insertAbove (stack.erase lid) ref lid
  | _ => stack

/-- Modelled from the spec: running a list of issued move instructions on a
bottom-to-top z-order stack, in order. -/
def applyMoves (stack : List String) (moves : List MapAction) : List String :=
  moves.foldl applyMove stack

/-! ## Statement helpers -/

/-- A copy of a layer with every searched field lowercased (name, metadata
description, metadata tags): used to state that search is insensitive to
the case of the layer fields. -/
def lowerFields (layer : LayerConfig) : LayerConfig :=
  { layer with
    name := jsToLowerCase layer.name,
    metadata := layer.metadata.map (fun m =>
      { m with
        description := m.description.map jsToLowerCase,
        tags := m.tags.map (fun tags => tags.map jsToLowerCase) }) }

/-- How many layers of a list are visible members of the basemap set. -/
def visibleBasemapCount (layers : List LayerConfig) : Nat :=
  (layers.filter (fun layer => basemapIds.contains layer.id && layer.visible)).length

/-! ## Concrete fixtures (inputs for counterexamples and witnesses) -/

/-- A hillshade layer as a host could configure one. -/
def hillshadeLayer : LayerConfig :=
  { id := "hills", name := "Hillshade", visible := true, opacity := 100,
    type := "hillshade" }

/-- A raster layer, as the demo's osm-base basemap. -/
def osmBase : LayerConfig :=
  { id := "osm-base", name := "OpenStreetMap", visible := true, opacity := 100,
    type := "raster", source := some "osm-source", groupId := some "basemaps" }

/-- The demo's satellite-base basemap. -/
def satelliteBase : LayerConfig :=
  { id := "satellite-base", name := "Satellite Imagery", visible := false,
    opacity := 100, type := "raster", source := some "satellite-source",
    groupId := some "basemaps" }

/-- The demo's terrain-base basemap. -/
def terrainBase : LayerConfig :=
  { id := "terrain-base", name := "Terrain Map", visible := false, opacity := 100,
    type := "raster", source := some "terrain-source", groupId := some "basemaps" }

/-- The demo's country-borders overlay. -/
def countryBorders : LayerConfig :=
  { id := "country-borders", name := "Country Borders", visible := true,
    opacity := 80, type := "line", source := some "borders-source",
    groupId := some "overlays" }

/-- The demo's layer list at the moment satellite-base has just been turned
on (its visible flag freshly set by the widget's handler). -/
def demoLayersSatelliteOn : List LayerConfig :=
  [osmBase, { satelliteBase with visible := true }, terrainBase, countryBorders]

/-- A layer matched only through a metadata tag. -/
def taggedLayer : LayerConfig :=
  { id := "rivers", name := "Blue lines", visible := true, opacity := 100,
    type := "line",
    metadata := some { description := none, tags := some ["water", "hydrology"] } }

/-- A group holding only the tag-matched layer. -/
def taggedGroup : LayerGroup :=
  { id := "hydro", name := "Hydrology", expanded := true, layers := [taggedLayer] }

/-- Three layers named for the reorder example. -/
def layerA : LayerConfig :=
  { id := "A", name := "A", visible := true, opacity := 100, type := "fill" }

/-- Second layer of the reorder example. -/
def layerB : LayerConfig :=
  { id := "B", name := "B", visible := true, opacity := 100, type := "fill" }

/-- Third layer of the reorder example. -/
def layerC : LayerConfig :=
  { id := "C", name := "C", visible := true, opacity := 100, type := "fill" }

/-- A group with one toggleable and one non-toggleable member, partly
visible. -/
def mixedGroup : LayerGroup :=
  { id := "mixed", name := "Mixed", expanded := true,
    layers := [{ layerA with visible := false },
               { layerB with toggleable := some false, visible := true }] }

/-- A map on which every layer id exists. -/
def presentAll : String → Bool := fun _ => true

/-- The layer ids the demo map carries once loaded. -/
def demoMapIds : List String :=
  ["osm-base", "satellite-base", "terrain-base", "country-borders", "cities",
   "earthquakes"]

/-- The getLayer existence check of the demo map. -/
def demoPresent : String → Bool := fun lid => demoMapIds.contains lid

/-! ## Character and string lemmas -/

theorem char_toNat_ofNat_valid (n : Nat) (h : n.isValidChar) :
    (Char.ofNat n).toNat = n := by
  rw [Char.ofNat, dif_pos h]
  simp [Char.ofNatAux, Char.toNat, UInt32.toNat]

theorem toLower_toNat (c : Char) :
    (Char.toLower c).toNat =
      if 65 ≤ c.toNat ∧ c.toNat ≤ 90 then c.toNat + 32 else c.toNat := by
  rw [Char.toLower]
  by_cases h : 65 ≤ c.toNat ∧ c.toNat ≤ 90
  · rw [if_pos ⟨h.1, h.2⟩, if_pos h]
    have hv : (c.toNat + 32).isValidChar := by
      refine Or.inl ?_
      omega
    exact char_toNat_ofNat_valid _ hv
  · rw [if_neg, if_neg h]
    intro hc
    exact h ⟨hc.1, hc.2⟩

theorem char_isWhitespace_iff (c : Char) :
    c.isWhitespace = true ↔
      (c.toNat = 32 ∨ c.toNat = 9 ∨ c.toNat = 13 ∨ c.toNat = 10) := by
  have hval : ∀ d : Char, (c = d) ↔ c.toNat = d.toNat := by
    intro d
    constructor
    · intro h; rw [h]
    · intro h
      exact Char.ext (UInt32.toNat.inj h)
  simp only [Char.isWhitespace, Bool.or_eq_true, decide_eq_true_eq]
  rw [hval ' ', hval '\t', hval '\r', hval '\n']
  have h32 : (' ').toNat = 32 := rfl
  have h9 : ('\t').toNat = 9 := rfl
  have h13 : ('\r').toNat = 13 := rfl
  have h10 : ('\n').toNat = 10 := rfl
  rw [h32, h9, h13, h10]
  tauto

theorem isWhitespace_toLower (c : Char) :
    (Char.toLower c).isWhitespace = c.isWhitespace := by
  have h1 := toLower_toNat c
  by_cases hw : c.isWhitespace = true
  · have hn := (char_isWhitespace_iff c).mp hw
    have heq : (Char.toLower c).toNat = c.toNat := by rw [h1, if_neg]; omega
    have h2 := (char_isWhitespace_iff (Char.toLower c)).mpr (by rw [heq]; exact hn)
    rw [h2, hw]
  · have hc : ¬ (c.toNat = 32 ∨ c.toNat = 9 ∨ c.toNat = 13 ∨ c.toNat = 10) :=
      fun h => hw ((char_isWhitespace_iff c).mpr h)
    have hnot : ¬ ((Char.toLower c).toNat = 32 ∨ (Char.toLower c).toNat = 9 ∨
        (Char.toLower c).toNat = 13 ∨ (Char.toLower c).toNat = 10) := by
      rw [h1]
      split <;> omega
    have hres : (Char.toLower c).isWhitespace ≠ true :=
      fun h => hnot ((char_isWhitespace_iff _).mp h)
    simp only [Bool.not_eq_true] at hres hw
    rw [hres, hw]

theorem toLower_idem (c : Char) :
    Char.toLower (Char.toLower c) = Char.toLower c := by
  by_cases h : 65 ≤ c.toNat ∧ c.toNat ≤ 90
  · have h2 : (Char.toLower c).toNat = c.toNat + 32 := by
      rw [toLower_toNat, if_pos h]
    rw [Char.toLower]
    rw [if_neg]
    intro hc
    omega
  · have h2 : Char.toLower c = c := by
      rw [Char.toLower, if_neg]
      intro hc; exact h ⟨hc.1, hc.2⟩
    simp only [h2]

theorem jsToLowerCase_data (s : String) :
    (jsToLowerCase s).data = s.data.map Char.toLower := rfl

theorem jsToLowerCase_append (a b : String) :
    jsToLowerCase (a ++ b) = jsToLowerCase a ++ jsToLowerCase b := by
  apply String.ext
  rw [String.data_append, jsToLowerCase_data, String.data_append,
    jsToLowerCase_data, jsToLowerCase_data, List.map_append]

theorem jsToLowerCase_idem (s : String) :
    jsToLowerCase (jsToLowerCase s) = jsToLowerCase s := by
  apply String.ext
  rw [jsToLowerCase_data, jsToLowerCase_data, List.map_map]
  exact List.map_congr_left (fun c _ => toLower_idem c)

theorem jsTrim_eq_empty_iff (s : String) :
    jsTrim s = "" ↔ ∀ c ∈ s.data, c.isWhitespace = true := by
  constructor
  · intro h
    have hd : ((s.data.dropWhile Char.isWhitespace).reverse.dropWhile
        Char.isWhitespace).reverse = ([] : List Char) := congrArg String.data h
    rw [List.reverse_eq_nil_iff, List.dropWhile_eq_nil_iff] at hd
    intro c hc
    rcases List.mem_append.mp
        ((List.takeWhile_append_dropWhile Char.isWhitespace s.data ▸ hc)) with h1 | h1
    · exact List.mem_takeWhile_imp h1
    · exact hd c (List.mem_reverse.mpr h1)
  · intro h
    have hdrop : s.data.dropWhile Char.isWhitespace = [] :=
      List.dropWhile_eq_nil_iff.mpr (fun x hx => h x hx)
    unfold jsTrim
    rw [hdrop]
    rfl

theorem jsTrim_append_ne_empty (q s : String) (h : jsTrim q ≠ "") :
    jsTrim (q ++ s) ≠ "" := by
  intro hqs
  apply h
  rw [jsTrim_eq_empty_iff] at hqs ⊢
  intro c hc
  exact hqs c (by rw [String.data_append]; exact List.mem_append.mpr (Or.inl hc))

theorem jsTrim_empty_of_lower_eq (q q' : String)
    (h : jsToLowerCase q = jsToLowerCase q') :
    (jsTrim q = "" ↔ jsTrim q' = "") := by
  have key : ∀ a b : String, jsToLowerCase a = jsToLowerCase b →
      jsTrim a = "" → jsTrim b = "" := by
    intro a b hab ha
    rw [jsTrim_eq_empty_iff] at ha ⊢
    intro c hc
    have hmem : Char.toLower c ∈ (jsToLowerCase b).data := by
      rw [jsToLowerCase_data]
      exact List.mem_map.mpr ⟨c, hc, rfl⟩
    rw [← hab, jsToLowerCase_data] at hmem
    rcases List.mem_map.mp hmem with ⟨d, hd, hdc⟩
    have hw : (Char.toLower d).isWhitespace = true := by
      rw [isWhitespace_toLower]
      exact ha d hd
    rw [hdc] at hw
    rw [← isWhitespace_toLower]
    exact hw
  exact ⟨key q q' h, key q' q h.symm⟩

theorem jsIncludes_append_left (s a b : String)
    (h : jsIncludes s (a ++ b) = true) : jsIncludes s a = true := by
  unfold jsIncludes at h ⊢
  rw [decide_eq_true_eq] at h ⊢
  rw [String.data_append] at h
  exact List.IsInfix.trans ( List.IsPrefix.isInfix (List.prefix_append a.data b.data)) h

/-! ## Search predicate lemmas -/

theorem layerMatchesQuery_lowerFields (query : String) (layer : LayerConfig) :
    layerMatchesQuery query (lowerFields layer) = layerMatchesQuery query layer := by
  cases hm : layer.metadata with
  | none =>
    simp [layerMatchesQuery, lowerFields, hm, jsToLowerCase_idem]
  | some m =>
    cases hd : m.description <;> cases ht : m.tags <;>
      simp [layerMatchesQuery, lowerFields, hm, hd, ht, jsToLowerCase_idem,
        List.any_map, Function.comp_def]

theorem layerMatchesQuery_append_left (q s : String) (layer : LayerConfig)
    (h : layerMatchesQuery (jsToLowerCase (q ++ s)) layer = true) :
    layerMatchesQuery (jsToLowerCase q) layer = true := by
  rw [jsToLowerCase_append] at h
  unfold layerMatchesQuery at h ⊢
  simp only [Bool.or_eq_true] at h ⊢
  rcases h with (h | h) | h
  · exact Or.inl (Or.inl (jsIncludes_append_left _ _ _ h))
  · refine Or.inl (Or.inr ?_)
    cases hd : layer.metadata.bind (fun m => m.description) with
    | none =>
      rw [hd] at h
      exact Bool.noConfusion h
    | some d =>
      rw [hd] at h
      exact jsIncludes_append_left _ _ _ h
  · refine Or.inr ?_
    cases ht : layer.metadata.bind (fun m => m.tags) with
    | none =>
      rw [ht] at h
      exact Bool.noConfusion h
    | some tags =>
      rw [ht] at h
      rcases List.any_eq_true.mp h with ⟨tag, htag, hmatch⟩
      exact List.any_eq_true.mpr ⟨tag, htag, jsIncludes_append_left _ _ _ hmatch⟩

/-! ## Claim theorems -/

/-- Claim C1: contrary to the specified no-op, the type-to-paint-property
lookup maps hillshade to the string hillshade-illumination-anchor (not to
null), so updateLayerOpacity on a hillshade layer present on a ready map
issues a setPaintProperty call with that (non-opacity) property and the
numeric value, instead of warning and skipping the mutation. -/
theorem c1_hillshade_issues_paint_call :
    getOpacityProperty "hillshade" = some "hillshade-illumination-anchor" ∧
    updateLayerOpacity true presentAll extOk hillshadeLayer 57 =
      Except.ok (some (MapAction.setPaintProperty "hills"
        "hillshade-illumination-anchor" (57 / 100))) :=
  ⟨rfl, rfl⟩

/-- Claim C6: a group's all-visible aggregate is true iff every member's
visibility flag is true, equivalently iff visibleCount equals the member
count; its indeterminate aggregate is true iff at least one but not all
members are visible, equivalently iff 0 < visibleCount < totalCount. -/
theorem c6_group_aggregate_state (group : LayerGroup) :
    (allLayersVisible group = true ↔ ∀ layer ∈ group.layers, layer.visible = true) ∧
    (allLayersVisible group = true ↔ visibleCount group = group.layers.length) ∧
    (someLayersVisible group = true ↔
      0 < visibleCount group ∧ visibleCount group < group.layers.length) := by
  have hall : allLayersVisible group = true ↔
      ∀ layer ∈ group.layers, layer.visible = true := List.all_eq_true
  have hcl := List.length_filter_le (fun layer => layer.visible) group.layers
  have hvc : visibleCount group = List.countP (fun layer => layer.visible) group.layers :=
    (List.countP_eq_length_filter _ _).symm
  have hcnt : allLayersVisible group = true ↔
      visibleCount group = group.layers.length := by
    rw [hall]
    constructor
    · intro h
      unfold visibleCount
      rw [List.filter_eq_self.mpr h]
    · intro h
      exact List.filter_eq_self.mp ((List.filter_sublist _).eq_of_length h)
  refine ⟨hall, hcnt, ?_⟩
  unfold someLayersVisible
  rw [Bool.and_eq_true, Bool.not_eq_true']
  constructor
  · rintro ⟨hany, hnall⟩
    have h1 : 0 < visibleCount group := by
      rw [hvc]
      exact List.countP_pos_iff.mpr (List.any_eq_true.mp hany)
    have h2 : visibleCount group ≠ group.layers.length := by
      intro he
      rw [← hcnt] at he
      rw [he] at hnall
      exact Bool.noConfusion hnall
    have hcl2 : visibleCount group ≤ group.layers.length := hcl
    exact ⟨h1, by omega⟩
  · rintro ⟨h1, h2⟩
    constructor
    · rw [hvc] at h1
      exact List.any_eq_true.mpr (List.countP_pos_iff.mp h1)
    · cases hb : allLayersVisible group
      · rfl
      · have := hcnt.mp hb
        omega

/-- Claim C7: toggling the group aggregate control sets the visibility flag
of every member whose toggleable flag is not false to the negation of the
group's all-visible state (and changes nothing else about the member), and
leaves every member whose toggleable flag is false unchanged. -/
theorem c7_toggle_group_flags (group : LayerGroup) :
    (toggleAllLayers group).length = group.layers.length ∧
    ∀ i : Nat, ∀ hi : i < group.layers.length,
      (group.layers[i].toggleable ≠ some false →
        (toggleAllLayers group)[i]? =
          some { group.layers[i] with visible := !(allLayersVisible group) }) ∧
      (group.layers[i].toggleable = some false →
        (toggleAllLayers group)[i]? = some group.layers[i]) := by
  refine ⟨List.length_map _ _, ?_⟩
  intro i hi
  have hm : (toggleAllLayers group)[i]? =
      (group.layers[i]?).map (fun layer =>
        if layer.toggleable ≠ some false then
          { layer with visible := !(allLayersVisible group) }
        else layer) := by
    unfold toggleAllLayers toggleGroupLayers
    exact List.getElem?_map _ _ _
  rw [List.getElem?_eq_getElem hi] at hm
  constructor
  · intro ht
    rw [hm]
    simp only [Option.map_some']
    rw [if_pos ht]
  · intro ht
    rw [hm]
    simp only [Option.map_some']
    rw [if_neg (fun hne => hne ht)]

/-- Claim C9: on a ready map with the layer present and its type mapped to
a paint property, updateLayerOpacity passes exactly the input percentage
divided by 100 to the setPaintProperty call, whatever the external call's
outcome. -/
theorem c9_opacity_divided_by_100 (present : String → Bool) (ext : MapExt)
    (layer : LayerConfig) (opacity : ℚ) (prop : String)
    (hp : present layer.id = true) (hm : getOpacityProperty layer.type = some prop) :
    updateLayerOpacity true present ext layer opacity =
      Except.ok (some (MapAction.setPaintProperty layer.id prop (opacity / 100))) := by
  unfold updateLayerOpacity
  rw [hm]
  simp only [hp, Bool.not_true, Bool.false_eq_true, if_false, Bool.not_false, if_true]
  cases ext (MapAction.setPaintProperty layer.id prop (opacity / 100)) <;> rfl

/-- Witness for C9: inputs 0, 100 and 57 on a raster layer yield paint
values exactly 0, 1 and 57/100. -/
theorem c9_opacity_divided_by_100_witness :
    updateLayerOpacity true presentAll extOk osmBase 0 =
      Except.ok (some (MapAction.setPaintProperty "osm-base" "raster-opacity" 0)) ∧
    updateLayerOpacity true presentAll extOk osmBase 100 =
      Except.ok (some (MapAction.setPaintProperty "osm-base" "raster-opacity" 1)) ∧
    updateLayerOpacity true presentAll extOk osmBase 57 =
      Except.ok (some (MapAction.setPaintProperty "osm-base" "raster-opacity" (57 / 100))) := by
  refine ⟨?_, ?_, ?_⟩
  · have h := c9_opacity_divided_by_100 presentAll extOk osmBase 0 "raster-opacity" rfl rfl
    rw [show (0 : ℚ) / 100 = 0 by norm_num] at h
    exact h
  · have h := c9_opacity_divided_by_100 presentAll extOk osmBase 100 "raster-opacity" rfl rfl
    rw [show (100 : ℚ) / 100 = 1 by norm_num] at h
    exact h
  · exact c9_opacity_divided_by_100 presentAll extOk osmBase 57 "raster-opacity" rfl rfl

/-- Claim C10: with the groups prop absent or empty every filtered layer is
ungrouped; otherwise a filtered layer is ungrouped exactly when its id
appears in no group's member list — the layer's own groupId back-reference
plays no part. -/
theorem c10_ungrouped_by_forward_lists (groups : Option (List LayerGroup))
    (filtered : List LayerConfig) :
    ((groups = none ∨ groups = some []) → ungroupedLayers groups filtered = filtered) ∧
    ∀ gs, groups = some gs → ∀ layer ∈ filtered,
      (layer ∈ ungroupedLayers groups filtered ↔
        ∀ g ∈ gs, ∀ member ∈ g.layers, member.id ≠ layer.id) := by
  constructor
  · rintro (rfl | rfl)
    · rfl
    · rfl
  · rintro gs rfl layer hl
    have hre : ungroupedLayers (some gs) filtered =
        if gs.length = 0 then filtered
        else List.filter
          (fun layer =>
            !((gs.flatMap (fun group => group.layers.map (fun layer => layer.id))).contains
              layer.id)) filtered := rfl
    rw [hre]
    by_cases hgs : gs.length = 0
    · rw [if_pos hgs]
      have hnil : gs = [] := List.length_eq_zero.mp hgs
      subst hnil
      simp [hl]
    · rw [if_neg hgs, List.mem_filter]
      have hcont : (gs.flatMap (fun group => group.layers.map (fun l => l.id))).contains
          layer.id = true ↔ ∃ g ∈ gs, ∃ member ∈ g.layers, member.id = layer.id := by
        rw [show ∀ (L : List String) a, L.contains a = L.elem a from fun _ _ => rfl]
        rw [List.elem_iff]
        simp [List.mem_flatMap, List.mem_map]
      constructor
      · rintro ⟨-, hpred⟩ g hg member hm heq
        rw [Bool.not_eq_true'] at hpred
        have : ∃ g ∈ gs, ∃ member ∈ g.layers, member.id = layer.id :=
          ⟨g, hg, member, hm, heq⟩
        rw [← hcont] at this
        rw [this] at hpred
        exact Bool.noConfusion hpred
      · intro hno
        refine ⟨hl, ?_⟩
        rw [Bool.not_eq_true']
        cases hc : (gs.flatMap (fun group => group.layers.map (fun l => l.id))).contains layer.id
        · rfl
        · rcases hcont.mp hc with ⟨g, hg, member, hm, heq⟩
          exact absurd heq (hno g hg member hm)

/-- Claim C2 counterexample: the query water matches a member layer through
its metadata tag under the ungrouped-layer predicate, yet filteredGroups
drops the group entirely — the group filter does not use the same
predicate. -/
theorem c2_group_filter_drops_tag_match :
    filteredGroups "water" [taggedGroup] = [] ∧
    layerMatchesQuery (jsToLowerCase "water") taggedLayer = true ∧
    jsTrim "water" ≠ "" := by
  refine ⟨by decide, by decide, by decide⟩

/-- Claim C2 (amended): for a non-whitespace query, the filtered view holds,
for exactly those groups with at least one member whose name or description
contains the lowercased query, a copy keeping exactly the members so
matching; metadata tags are not consulted for grouped members (unlike the
ungrouped-layer predicate), and groups left with no member are omitted. -/
theorem c2_filteredGroups_name_description (searchQuery : String)
    (localGroups : List LayerGroup) (h : jsTrim searchQuery ≠ "") :
    ∀ g', g' ∈ filteredGroups searchQuery localGroups ↔
      ∃ g, g ∈ localGroups ∧
        g' = { g with layers := (g.layers.filter
          (fun layer => groupLayerMatchesQuery (jsToLowerCase searchQuery) layer)) } ∧
        ∃ layer ∈ g.layers,
          groupLayerMatchesQuery (jsToLowerCase searchQuery) layer = true := by
  intro g'
  have hre : filteredGroups searchQuery localGroups =
      (localGroups.map (fun group =>
        { group with layers := (group.layers.filter
          (fun layer => groupLayerMatchesQuery (jsToLowerCase searchQuery) layer)) })).filter
        (fun group => group.layers.length > 0) := by
    unfold filteredGroups
    rw [if_neg h]
  rw [hre, List.mem_filter, List.mem_map]
  constructor
  · rintro ⟨⟨g, hg, rfl⟩, hlen⟩
    refine ⟨g, hg, rfl, ?_⟩
    simp only [decide_eq_true_eq] at hlen
    have hpos : 0 < (g.layers.filter
        (fun layer => groupLayerMatchesQuery (jsToLowerCase searchQuery) layer)).length :=
      hlen
    rcases List.exists_mem_of_ne_nil _ (List.length_pos.mp hpos) with ⟨y, hy⟩
    rcases List.mem_filter.mp hy with ⟨hyg, hymatch⟩
    exact ⟨y, hyg, hymatch⟩
  · rintro ⟨g, hg, rfl, layer, hlay, hmatch⟩
    refine ⟨⟨g, hg, rfl⟩, ?_⟩
    simp only [decide_eq_true_eq]
    show 0 < (g.layers.filter
      (fun layer => groupLayerMatchesQuery (jsToLowerCase searchQuery) layer)).length
    rw [List.length_pos]
    intro hnil
    rw [List.filter_eq_nil_iff] at hnil
    exact (hnil layer hlay) hmatch

/-- Witness for the amended C2: the query blue keeps the hydrology group,
whose single member matches by name. -/
theorem c2_filteredGroups_name_description_witness :
    taggedGroup ∈ filteredGroups "blue" [taggedGroup] := by
  apply (c2_filteredGroups_name_description "blue" [taggedGroup] (by decide) taggedGroup).mpr
  refine ⟨taggedGroup, by decide, by decide, ⟨taggedLayer, by decide, by decide⟩⟩

/-- Claim C8: the search filter is case-insensitive — queries equal up to
letter case filter identically, and lowercasing the searched layer fields
changes nothing — and monotone: every layer passing the filter for an
extended query passes it for the original query. -/
theorem c8_search_case_insensitive_monotone :
    (∀ (localLayers : List LayerConfig) (q q' : String),
      jsToLowerCase q = jsToLowerCase q' →
      filteredLayers q localLayers = filteredLayers q' localLayers) ∧
    (∀ (localLayers : List LayerConfig) (q : String),
      filteredLayers q (localLayers.map lowerFields) =
        (filteredLayers q localLayers).map lowerFields) ∧
    (∀ (localLayers : List LayerConfig) (q s2 : String),
      ∀ layer ∈ filteredLayers (q ++ s2) localLayers,
        layer ∈ filteredLayers q localLayers) := by
  refine ⟨?_, ?_, ?_⟩
  · intro localLayers q q' h
    unfold filteredLayers
    have htr := jsTrim_empty_of_lower_eq q q' h
    by_cases h1 : jsTrim q = ""
    · rw [if_pos h1, if_pos (htr.mp h1)]
    · rw [if_neg h1, if_neg (fun hh => h1 (htr.mpr hh)), h]
  · intro localLayers q
    unfold filteredLayers
    by_cases h1 : jsTrim q = ""
    · rw [if_pos h1, if_pos h1]
    · rw [if_neg h1, if_neg h1, List.filter_map]
      have hcong : List.filter
          ((fun layer => layerMatchesQuery (jsToLowerCase q) layer) ∘ lowerFields)
          localLayers =
          List.filter (fun layer => layerMatchesQuery (jsToLowerCase q) layer)
            localLayers :=
        List.filter_congr (fun x _ => layerMatchesQuery_lowerFields (jsToLowerCase q) x)
      rw [hcong]
  · intro localLayers q s2 layer hmem
    unfold filteredLayers at hmem ⊢
    by_cases h1 : jsTrim q = ""
    · rw [if_pos h1]
      by_cases h2 : jsTrim (q ++ s2) = ""
      · rw [if_pos h2] at hmem
        exact hmem
      · rw [if_neg h2] at hmem
        exact (List.mem_filter.mp hmem).1
    · rw [if_neg h1]
      have h2 : jsTrim (q ++ s2) ≠ "" := jsTrim_append_ne_empty q s2 h1
      rw [if_neg h2] at hmem
      rcases List.mem_filter.mp hmem with ⟨hL, hpred⟩
      exact List.mem_filter.mpr ⟨hL, layerMatchesQuery_append_left q s2 layer hpred⟩

/-- Claim C4: each handler first writes the local field, then attempts the
map-side mutation, then emits the outward notification carrying the new
value, in that order; when the map side is skipped (map not ready, layer id
absent, or no mapped opacity property) the local write and the notification
still happen with matching values; and the handler returns normally
whatever the external call does (a throw is caught). -/
theorem c4_local_map_emit_order (mapReady : Bool) (present : String → Bool)
    (ext ext2 : MapExt) (layer : LayerConfig) (visible : Bool) (opacity : ℚ) :
    (∃ act : Option MapAction,
      handleLayerVisibilityChange mapReady present ext layer visible =
        Except.ok ({ layer with visible := visible },
          Event.localVisible layer.id visible ::
            (act.toList.map Event.mapCall ++
              [Event.emitVisibilityChange layer.id visible])) ∧
      ((mapReady = false ∨ present layer.id = false) → act = none)) ∧
    (∃ act : Option MapAction,
      handleLayerOpacityChange mapReady present ext layer opacity =
        Except.ok ({ layer with opacity := opacity },
          Event.localOpacity layer.id opacity ::
            (act.toList.map Event.mapCall ++
              [Event.emitOpacityChange layer.id opacity])) ∧
      ((mapReady = false ∨ present layer.id = false ∨
          getOpacityProperty layer.type = none) → act = none)) ∧
    handleLayerVisibilityChange mapReady present ext layer visible =
      handleLayerVisibilityChange mapReady present ext2 layer visible ∧
    handleLayerOpacityChange mapReady present ext layer opacity =
      handleLayerOpacityChange mapReady present ext2 layer opacity := by
  cases mapReady
  · exact ⟨⟨none, rfl, fun _ => rfl⟩, ⟨none, rfl, fun _ => rfl⟩, rfl, rfl⟩
  · rcases Or.symm (Bool.eq_false_or_eq_true (present layer.id)) with hp | hp
    · have hv : ∀ e : MapExt, handleLayerVisibilityChange true present e layer visible =
          Except.ok ({ layer with visible := visible },
            Event.localVisible layer.id visible ::
              ((none : Option MapAction).toList.map Event.mapCall ++
                [Event.emitVisibilityChange layer.id visible])) := by
        intro e
        unfold handleLayerVisibilityChange toggleLayerVisibility
        dsimp only
        rw [hp]
        rfl
      have ho : ∀ e : MapExt, handleLayerOpacityChange true present e layer opacity =
          Except.ok ({ layer with opacity := opacity },
            Event.localOpacity layer.id opacity ::
              ((none : Option MapAction).toList.map Event.mapCall ++
                [Event.emitOpacityChange layer.id opacity])) := by
        intro e
        unfold handleLayerOpacityChange updateLayerOpacity
        dsimp only
        rw [hp]
        rfl
      exact ⟨⟨none, hv ext, fun _ => rfl⟩, ⟨none, ho ext, fun _ => rfl⟩,
        (hv ext).trans (hv ext2).symm, (ho ext).trans (ho ext2).symm⟩
    · have hv : ∀ e : MapExt, handleLayerVisibilityChange true present e layer visible =
          Except.ok ({ layer with visible := visible },
            Event.localVisible layer.id visible ::
              ((some (MapAction.setLayoutVisibility layer.id
                  (if visible then "visible" else "none"))).toList.map Event.mapCall ++
                [Event.emitVisibilityChange layer.id visible])) := by
        intro e
        unfold handleLayerVisibilityChange toggleLayerVisibility
        dsimp only
        rw [hp]
        cases e (MapAction.setLayoutVisibility layer.id
          (if visible then "visible" else "none")) <;> rfl
      have hvis : (∃ act : Option MapAction,
          handleLayerVisibilityChange true present ext layer visible =
            Except.ok ({ layer with visible := visible },
              Event.localVisible layer.id visible ::
                (act.toList.map Event.mapCall ++
                  [Event.emitVisibilityChange layer.id visible])) ∧
          ((true = false ∨ present layer.id = false) → act = none)) := by
        refine ⟨some (MapAction.setLayoutVisibility layer.id
          (if visible then "visible" else "none")), hv ext, ?_⟩
        rintro (hc | hc)
        · exact Bool.noConfusion hc
        · rw [hp] at hc
          exact Bool.noConfusion hc
      cases hop : getOpacityProperty layer.type
      · have ho : ∀ e : MapExt, handleLayerOpacityChange true present e layer opacity =
            Except.ok ({ layer with opacity := opacity },
              Event.localOpacity layer.id opacity ::
                ((none : Option MapAction).toList.map Event.mapCall ++
                  [Event.emitOpacityChange layer.id opacity])) := by
          intro e
          unfold handleLayerOpacityChange updateLayerOpacity
          dsimp only
          rw [hp, hop]
          rfl
        exact ⟨hvis, ⟨none, ho ext, fun _ => rfl⟩,
          (hv ext).trans (hv ext2).symm, (ho ext).trans (ho ext2).symm⟩
      · rename_i prop
        have ho : ∀ e : MapExt, handleLayerOpacityChange true present e layer opacity =
            Except.ok ({ layer with opacity := opacity },
              Event.localOpacity layer.id opacity ::
                ((some (MapAction.setPaintProperty layer.id prop
                    (opacity / 100))).toList.map Event.mapCall ++
                  [Event.emitOpacityChange layer.id opacity])) := by
          intro e
          unfold handleLayerOpacityChange updateLayerOpacity
          dsimp only
          rw [hp, hop]
          dsimp only
          cases e (MapAction.setPaintProperty layer.id prop (opacity / 100)) <;> rfl
        refine ⟨hvis, ⟨some (MapAction.setPaintProperty layer.id prop (opacity / 100)),
          ho ext, ?_⟩, (hv ext).trans (hv ext2).symm, (ho ext).trans (ho ext2).symm⟩
        rintro (hc | hc | hc)
        · exact Bool.noConfusion hc
        · rw [hp] at hc
          exact Bool.noConfusion hc
        · exact Option.noConfusion hc

/-- Claim C5: turning a basemap on, the demo handler forces every other
member of the fixed basemap id set off, locally and on the map, touches no
other layer, and leaves exactly one visible basemap (the one turned on,
assuming ids are unique and its flag was just set); turning a layer off or
toggling a non-basemap layer changes nothing; concretely, turning
satellite-base on while osm-base is visible leaves one visible basemap and
issues exactly the two none calls for the other basemaps. -/
theorem c5_basemap_radio_group (present : String → Bool) (layers : List LayerConfig) :
    (∀ lid vis, vis = false ∨ basemapIds.contains lid = false →
      handleBasemapChange present layers lid vis = (layers, [])) ∧
    (∀ layerId, basemapIds.contains layerId = true →
      (∀ i : Nat, ∀ hi : i < layers.length,
        (basemapIds.contains layers[i].id = false →
          (handleBasemapChange present layers layerId true).1[i]? = some layers[i]) ∧
        (layers[i].id = layerId →
          (handleBasemapChange present layers layerId true).1[i]? = some layers[i]) ∧
        (basemapIds.contains layers[i].id = true → layers[i].id ≠ layerId →
          (handleBasemapChange present layers layerId true).1[i]? =
            some { layers[i] with visible := false })) ∧
      (∀ a ∈ (handleBasemapChange present layers layerId true).2,
        ∃ b, b ∈ basemapIds ∧ b ≠ layerId ∧
          a = MapAction.setLayoutVisibility b "none") ∧
      (∀ l ∈ layers, basemapIds.contains l.id = true → l.id ≠ layerId →
        present l.id = true →
        MapAction.setLayoutVisibility l.id "none" ∈
          (handleBasemapChange present layers layerId true).2) ∧
      ((∀ l ∈ layers, l.id = layerId → l.visible = true) →
        layers.countP (fun l => l.id == layerId) = 1 →
        visibleBasemapCount (handleBasemapChange present layers layerId true).1 = 1)) ∧
    visibleBasemapCount
      (handleBasemapChange demoPresent demoLayersSatelliteOn "satellite-base" true).1 = 1 ∧
    (handleBasemapChange demoPresent demoLayersSatelliteOn "satellite-base" true).2 =
      [MapAction.setLayoutVisibility "osm-base" "none",
       MapAction.setLayoutVisibility "terrain-base" "none"] := by
  refine ⟨?_, ?_, by decide, by decide⟩
  · intro lid vis h
    unfold handleBasemapChange
    rcases h with rfl | h
    · rfl
    · rw [h]
      cases vis <;> rfl
  · intro layerId hbm
    have hre : handleBasemapChange present layers layerId true =
        (layers.map (fun layer =>
          if basemapIds.contains layer.id && layer.id != layerId then
            { layer with visible := false }
          else layer),
         layers.filterMap (fun layer =>
          if basemapIds.contains layer.id && layer.id != layerId && present layer.id then
            some (MapAction.setLayoutVisibility layer.id "none")
          else none)) := by
      unfold handleBasemapChange
      rw [hbm]
      rfl
    refine ⟨?_, ?_, ?_, ?_⟩
    · intro i hi
      have hm : (handleBasemapChange present layers layerId true).1[i]? =
          (layers[i]?).map (fun layer =>
            if basemapIds.contains layer.id && layer.id != layerId then
              { layer with visible := false }
            else layer) := by
        rw [hre]
        exact List.getElem?_map _ _ _
      rw [List.getElem?_eq_getElem hi] at hm
      refine ⟨?_, ?_, ?_⟩
      · intro hc
        have hcond : (basemapIds.contains (layers[i]).id && ((layers[i]).id != layerId))
            = false := by rw [hc]; rfl
        have hnc : ¬ ((basemapIds.contains (layers[i]).id && ((layers[i]).id != layerId))
            = true) := by rw [hcond]; exact fun h => Bool.noConfusion h
        rw [hm]
        simp only [Option.map_some']
        rw [if_neg hnc]
      · intro heq
        have hcond : (basemapIds.contains (layers[i]).id && ((layers[i]).id != layerId))
            = false := by rw [heq]; simp
        have hnc : ¬ ((basemapIds.contains (layers[i]).id && ((layers[i]).id != layerId))
            = true) := by rw [hcond]; exact fun h => Bool.noConfusion h
        rw [hm]
        simp only [Option.map_some']
        rw [if_neg hnc]
      · intro hc hne
        have hcond : (basemapIds.contains (layers[i]).id && ((layers[i]).id != layerId))
            = true := by rw [hc, Bool.true_and]; exact bne_iff_ne.mpr hne
        rw [hm]
        simp only [Option.map_some']
        rw [if_pos hcond]
    · intro a ha
      rw [hre] at ha
      rcases List.mem_filterMap.mp ha with ⟨layer, hl, hg⟩
      by_cases hcond : (basemapIds.contains layer.id && layer.id != layerId &&
          present layer.id) = true
      · rw [if_pos hcond] at hg
        simp only [Bool.and_eq_true] at hcond
        rcases hcond with ⟨⟨h1, h2⟩, -⟩
        refine ⟨layer.id, ?_, bne_iff_ne.mp h2, (Option.some.inj hg).symm⟩
        exact List.elem_iff.mp h1
      · rw [if_neg hcond] at hg
        exact Option.noConfusion hg
    · intro l hl hcont hne hpres
      rw [hre]
      refine List.mem_filterMap.mpr ⟨l, hl, ?_⟩
      have hcond : (basemapIds.contains l.id && (l.id != layerId) && present l.id)
          = true := by
        simp only [hcont, hpres, Bool.true_and, Bool.and_true]
        exact bne_iff_ne.mpr hne
      rw [if_pos hcond]
    · intro hvis huniq
      rw [hre]
      unfold visibleBasemapCount
      rw [← List.countP_eq_length_filter, List.countP_map]
      have hpt : ∀ x ∈ layers,
          ((fun layer => basemapIds.contains layer.id && layer.visible) ∘
            (fun layer =>
              if basemapIds.contains layer.id && layer.id != layerId then
                { layer with visible := false }
              else layer)) x = true ↔ (x.id == layerId) = true := by
        intro x hx
        simp only [Function.comp_apply]
        by_cases hxid : x.id = layerId
        · have hcond : (basemapIds.contains x.id && (x.id != layerId)) = false := by
            rw [hxid]; simp
          rw [if_neg (show ¬ _ = true by rw [hcond]; exact fun h => Bool.noConfusion h)]
          rw [hxid, hbm, hvis x hx hxid]
          simp
        · rcases Or.symm (Bool.eq_false_or_eq_true (basemapIds.contains x.id)) with hxc | hxc
          · have hcond : (basemapIds.contains x.id && (x.id != layerId)) = false := by
              rw [hxc]; rfl
            rw [if_neg (show ¬ _ = true by rw [hcond]; exact fun h => Bool.noConfusion h)]
            rw [hxc, Bool.false_and]
            simp [hxid]
          · have hcond : (basemapIds.contains x.id && (x.id != layerId)) = true := by
              rw [hxc, Bool.true_and]; exact bne_iff_ne.mpr hxid
            rw [if_pos hcond]
            simp [hxid]
      rw [List.countP_congr hpt, huniq]

/-- Every instruction updateLayerOrder issues moves a layer that is an entry
of the walked list and present on the map: absent entries are skipped. -/
theorem orderLoop_subjects (present : String → Bool) (r : List LayerConfig) :
    ∀ (k : Nat) (sub : List LayerConfig), ∀ a ∈ orderLoop present r k sub,
      ∃ l, l ∈ sub ∧ present l.id = true ∧ ∃ b, a = MapAction.moveLayer l.id b := by
  intro k sub
  induction sub generalizing k with
  | nil =>
    intro a ha
    exact absurd ha (List.not_mem_nil a)
  | cons layer rest ih =>
    intro a ha
    simp only [orderLoop] at ha
    rcases List.mem_append.mp ha with h | h
    · by_cases hp : present layer.id = true
      · rw [if_pos hp] at h
        refine ⟨layer, List.mem_cons_self layer rest, hp, ?_⟩
        by_cases hk : (k == 0) = true
        · rw [if_pos hk] at h
          rcases List.mem_singleton.mp h with rfl
          exact ⟨none, rfl⟩
        · rw [if_neg hk] at h
          cases hprev : r[k - 1]? with
          | none =>
            rw [hprev] at h
            dsimp only at h
            exact absurd h (List.not_mem_nil a)
          | some previousLayer =>
            rw [hprev] at h
            dsimp only at h
            by_cases hpp : present previousLayer.id = true
            · rw [if_pos hpp] at h
              rcases List.mem_singleton.mp h with rfl
              exact ⟨some previousLayer.id, rfl⟩
            · rw [if_neg hpp] at h
              exact absurd h (List.not_mem_nil a)
      · rw [if_neg hp] at h
        exact absurd h (List.not_mem_nil a)
    · rcases ih (k + 1) a h with ⟨l, hl, hpl, hb⟩
      exact ⟨l, List.mem_cons_of_mem layer hl, hpl, hb⟩

/-- With every walked entry present, the tail of the walk (from index one)
moves each entry before its predecessor in the reversed list. -/
theorem orderLoop_all_present (present : String → Bool) (r : List LayerConfig)
    (hall : ∀ l ∈ r, present l.id = true) :
    ∀ (sub : List LayerConfig) (k : Nat), 1 ≤ k → r.drop k = sub →
      orderLoop present r k sub =
        (sub.zip (r.drop (k - 1))).map
          (fun p => MapAction.moveLayer p.1.id (some p.2.id)) := by
  intro sub
  induction sub with
  | nil =>
    intro k hk hdrop
    simp [orderLoop]
  | cons y ys ih =>
    intro k hk hdrop
    have hklt : k < r.length := by
      by_contra hge
      push_neg at hge
      rw [List.drop_eq_nil_of_le hge] at hdrop
      exact List.noConfusion hdrop
    have hk1 : k - 1 < r.length := by omega
    have hsucc : k - 1 + 1 = k := by omega
    have hdropk1 : r.drop (k - 1) = r[k - 1] :: r.drop k := by
      rw [← List.getElem_cons_drop r (k - 1) hk1, hsucc]
    have hpy : present y.id = true := by
      apply hall
      apply List.mem_of_mem_drop (n := k)
      rw [hdrop]
      exact List.mem_cons_self y ys
    have hpprev : present (r[k - 1]).id = true := hall _ (List.getElem_mem hk1)
    have hknp : ¬ ((k == 0) = true) := by
      intro hzero
      have : k = 0 := by simpa using hzero
      omega
    have hdrop2 : r.drop (k + 1) = ys := by
      have hdd : (r.drop k).drop 1 = r.drop (k + 1) := List.drop_drop 1 k r
      rw [← hdd, hdrop]
      rfl
    simp only [orderLoop]
    rw [if_pos hpy, if_neg hknp, List.getElem?_eq_getElem hk1]
    rw [ih (k + 1) (by omega) hdrop2]
    rw [hdropk1]
    simp only [Nat.add_sub_cancel, hdrop]
    rw [if_pos hpprev]
    simp [List.zip_cons_cons]

/-- Claim C3: with the map ready, the reorder operation walks the given list
in reverse; every issued instruction moves a present entry (absent entries
are skipped), and with every entry present the instruction list is exactly:
first (bottom-most) entry moved with no reference, each subsequent entry
moved before the previous one. On [A, B, C] this issues moves placing C at
the bottom, then B directly above C, then A directly above B, as running
the issued instructions on a z-order stack shows. -/
theorem c3_update_layer_order (present : String → Bool) (layers : List LayerConfig) :
    (∀ a ∈ updateLayerOrder true present layers,
      ∃ l, l ∈ layers ∧ present l.id = true ∧ ∃ b, a = MapAction.moveLayer l.id b) ∧
    ((∀ l ∈ layers, present l.id = true) →
      updateLayerOrder true present layers = reverseWalkMoves layers.reverse) ∧
    updateLayerOrder true presentAll [layerA, layerB, layerC] =
      [MapAction.moveLayer "C" none, MapAction.moveLayer "B" (some "C"),
       MapAction.moveLayer "A" (some "B")] ∧
    applyMoves ["A", "B", "C"]
      (updateLayerOrder true presentAll [layerA, layerB, layerC]) =
      ["C", "B", "A"] := by
  refine ⟨?_, ?_, by decide, by decide⟩
  · intro a ha
    have hu : updateLayerOrder true present layers =
        orderLoop present layers.reverse 0 layers.reverse := rfl
    rw [hu] at ha
    rcases orderLoop_subjects present layers.reverse 0 layers.reverse a ha with
      ⟨l, hl, hp, hb⟩
    exact ⟨l, List.mem_reverse.mp hl, hp, hb⟩
  · intro hall
    have hall2 : ∀ l ∈ layers.reverse, present l.id = true := fun l hl =>
      hall l (List.mem_reverse.mp hl)
    show orderLoop present layers.reverse 0 layers.reverse =
      reverseWalkMoves layers.reverse
    cases hr : layers.reverse with
    | nil => rfl
    | cons x0 rest =>
      have hall3 : ∀ l ∈ x0 :: rest, present l.id = true := by
        rw [← hr]
        exact hall2
      have hx0 : present x0.id = true := hall3 x0 (List.mem_cons_self x0 rest)
      simp only [orderLoop, reverseWalkMoves]
      rw [if_pos hx0]
      rw [orderLoop_all_present present (x0 :: rest) hall3 rest 1 (by omega) rfl]
      simp

end LayerControl
